import Mathlib

/-!
Verification of the Shopify store insights fetcher (`src/main.py`).

The development shallow-embeds the extraction pipeline of the source file:
pure Python string/HTML heuristics become Lean functions over an explicit
HTML node tree, the paginated catalog fetch becomes a recursion over the
finite list of successive listing responses, exceptions become `Except`,
and the orchestrator `fetch_store_insights` becomes a function from an
explicit network `World` to `Except` of the aggregate record.

Library/runtime behaviour that the source relies on (Python string methods,
`urllib.parse`, the concrete regular expressions, BeautifulSoup queries) is
implemented here over `List Char` so that every definition is executable and
kernel-reducible.  Python's `str` semantics are modelled for ASCII input.
-/

set_option maxRecDepth 16384

namespace Shopify

/-! ## Python string primitives (ASCII model) -/

/-- Python `str.strip` whitespace set: `' '`, `\t`, `\n`, `\r`, `\x0b`, `\x0c`. -/
def isPySpace (c : Char) : Bool :=
  c = ' ' || c = '\t' || c = '\n' || c = '\x0d' || c = '\x0b' || c = '\x0c'

def stripL (l : List Char) : List Char :=
  ((l.dropWhile isPySpace).reverse.dropWhile isPySpace).reverse

/-- Python `str.strip()`. -/
def pyStrip (s : String) : String := String.mk (stripL s.toList)

/-- Python `str.lower()` (ASCII). -/
def pyLower (s : String) : String := String.mk (s.toList.map Char.toLower)

/-- Python `str.capitalize()`: first char upper-cased, the rest lower-cased. -/
def pyCapitalize (s : String) : String :=
  match s.toList with
  | [] => ""
  | c :: r => String.mk (c.toUpper :: r.map Char.toLower)

/-- `listPre p l` holds when `p` is an initial segment of `l`. -/
def listPre : List Char → List Char → Bool
  | [], _ => true
  | _ :: _, [] => false
  | a :: as, b :: bs => a = b && listPre as bs

/-- Occurrence of `p` as a contiguous sublist of `l` (Python `p in l`). -/
def containsL (p : List Char) : List Char → Bool
  | [] => listPre p []
  | c :: r => listPre p (c :: r) || containsL p r

/-- Python `needle in hay` on strings. -/
def inStr (needle hay : String) : Bool := containsL needle.toList hay.toList

/-- Python `s.startswith(p)`. -/
def pyStartsWith (s p : String) : Bool := listPre p.toList s.toList

/-- Python `s.endswith(p)`. -/
def pyEndsWith (s p : String) : Bool := listPre p.toList.reverse s.toList.reverse

/-- Index of the first occurrence of `pat` in `l`, if any. -/
def firstOcc (pat : List Char) : List Char → Option Nat
  | [] => if listPre pat [] then some 0 else none
  | c :: r => if listPre pat (c :: r) then some 0 else (firstOcc pat r).map (· + 1)

/-- Fueled loop computing the suffix after the last non-overlapping occurrence
of `pat` (Python `s.split(pat)[-1]`); the fuel is the input length. -/
def lastSegF : Nat → List Char → List Char → List Char
  | 0, _, l => l
  | Nat.succ f, pat, l =>
    match firstOcc pat l with
    | some k => lastSegF f pat (l.drop (k + pat.length))
    | none => l

/-- Python `s.split(pat)[-1]`. -/
def afterLastSub (pat s : String) : String :=
  String.mk (lastSegF s.toList.length pat.toList s.toList)

def beforeFirstSubL (pat : List Char) : List Char → List Char
  | [] => []
  | c :: r => if listPre pat (c :: r) then [] else c :: beforeFirstSubL pat r

/-- Python `s.split(pat)[0]`. -/
def beforeFirstSub (pat s : String) : String :=
  String.mk (beforeFirstSubL pat.toList s.toList)

/-- Fueled replacement of all non-overlapping occurrences, left to right. -/
def replAllF : Nat → List Char → List Char → List Char → List Char
  | 0, _, _, l => l
  | Nat.succ f, pat, rep, l =>
    match l with
    | [] => []
    | c :: r =>
      if !pat.isEmpty && listPre pat (c :: r) then
        rep ++ replAllF f pat rep ((c :: r).drop pat.length)
      else c :: replAllF f pat rep r

/-- Python `s.replace(pat, rep)` (all occurrences). -/
def pyReplace (s pat rep : String) : String :=
  String.mk (replAllF s.toList.length pat.toList rep.toList s.toList)

/-- Python `s[:n]` on strings (first `n` characters). -/
def takeChars (n : Nat) (s : String) : String := String.mk (s.toList.take n)

def tokensAux : List Char → List Char → List (List Char)
  | cur, [] => if cur.isEmpty then [] else [cur.reverse]
  | cur, c :: r =>
    if isPySpace c then
      if cur.isEmpty then tokensAux [] r else cur.reverse :: tokensAux [] r
    else tokensAux (c :: cur) r

/-- Whitespace-separated tokens of a string (Python `s.split()`), used for the
multi-valued `class` attribute. -/
def wsTokens (s : String) : List String := (tokensAux [] s.toList).map String.mk

/-- `list(set(l))` modelled with a fixed (first-occurrence) ordering; the
Python set iteration order is unspecified, so theorems about it are stated
order-robustly. -/
def dedupAux {α : Type} [DecidableEq α] : List α → List α → List α
  | _, [] => []
  | seen, x :: xs =>
    if x ∈ seen then dedupAux seen xs else x :: dedupAux (x :: seen) xs

def dedupFirst {α : Type} [DecidableEq α] (l : List α) : List α := dedupAux [] l

/-! ## Parsed HTML (BeautifulSoup) model

A parsed page is a tree of element and text nodes.  The soup object itself is
represented as a root element whose children are the top-level nodes; queries
on an element search its proper descendants in document (pre-)order, exactly
as BeautifulSoup `find` / `find_all` / `select` do. -/

inductive Node where
  | text (s : String)
  | elem (tag : String) (attrs : List (String × String)) (children : List Node)

def tagOf : Node → String
  | .text _ => ""
  | .elem t _ _ => t

def attrsOf : Node → List (String × String)
  | .text _ => []
  | .elem _ a _ => a

def lookupA (k : String) : List (String × String) → Option String
  | [] => none
  | (a, v) :: r => if a = k then some v else lookupA k r

/-- `tag.get(k)` — first binding of attribute `k`. -/
def getAttr (n : Node) (k : String) : Option String := lookupA k (attrsOf n)

/-- All element nodes of a subtree in document (pre-)order, the root included. -/
def elemTree : Node → List Node
  | .text _ => []
  | .elem t a cs => .elem t a cs :: go cs
where go : List Node → List Node
  | [] => []
  | n :: ns => elemTree n ++ go ns

/-- All proper-descendant elements of a node in document order; this is the
search space of BeautifulSoup `find`/`find_all`/`select` on that node. -/
def soupElems (n : Node) : List Node :=
  match n with
  | .text _ => []
  | .elem _ _ cs => elemTree.go cs

/-- All text-node strings of a subtree in document order. -/
def textTree : Node → List String
  | .text s => [s]
  | .elem _ _ cs => go cs
where go : List Node → List String
  | [] => []
  | n :: ns => textTree n ++ go ns

/-- `get_text()` — concatenation of all strings of the subtree. -/
def getTextAll (n : Node) : String := String.join (textTree n)

/-- `get_text(strip=True)` — each string stripped, empty ones dropped. -/
def getTextStrip (n : Node) : String :=
  String.join (((textTree n).map pyStrip).filter (fun s => !s.toList.isEmpty))

/-- `get_text(separator=' ', strip=True)`. -/
def getTextSepStrip (n : Node) : String :=
  String.intercalate " " (((textTree n).map pyStrip).filter (fun s => !s.toList.isEmpty))

/-- The CSS selectors the source uses: class, tag, id, and
`[attr*="sub"]` attribute-substring selectors. -/
inductive Sel where
  | cls (name : String)
  | tagSel (name : String)
  | idSel (name : String)
  | attrHas (attr : String) (sub : String)

def selMatch (s : Sel) (n : Node) : Bool :=
  match s with
  | .cls c =>
    match getAttr n "class" with
    | some v => (wsTokens v).any (fun t => decide (t = c))
    | none => false
  | .tagSel t => decide (tagOf n = t)
  | .idSel i => decide (getAttr n "id" = some i)
  | .attrHas a sub =>
    match getAttr n a with
    | some v => inStr sub v
    | none => false

/-- `soup.select(sel)` — all matching descendant elements in document order. -/
def selectAll (soup : Node) (s : Sel) : List Node := (soupElems soup).filter (selMatch s)

/-- `soup.select_one(sel)`. -/
def selectOne (soup : Node) (s : Sel) : Option Node := (soupElems soup).find? (selMatch s)

/-- `soup.find` with a boolean condition over descendant elements. -/
def findFirst (p : Node → Bool) (soup : Node) : Option Node := (soupElems soup).find? p

/-! ## The concrete regular expressions of the source

`re.findall` is modelled by a left-to-right scan: at every position the
pattern is matched with Python's leftmost/greedy backtracking semantics
(specialised to the three concrete patterns of the source), and scanning
resumes after each match (non-overlapping). -/

/-- `\w` of Python `re` (ASCII model). -/
def isWordChar (c : Char) : Bool := c.isAlphanum || c = '_'

/-- A `\b` word boundary between two (optional) adjacent characters. -/
def boundaryB (a b : Option Char) : Bool :=
  ((a.map isWordChar).getD false) != ((b.map isWordChar).getD false)

/-- Character class `[A-Za-z0-9._%+-]` of the email pattern's local part. -/
def isLocalChar (c : Char) : Bool :=
  c.isAlphanum || c = '.' || c = '_' || c = '%' || c = '+' || c = '-'

/-- Character class `[A-Za-z0-9.-]` of the email pattern's domain part. -/
def isDomChar (c : Char) : Bool := c.isAlphanum || c = '.' || c = '-'

/-- Character class `[A-Z|a-z]` of the email pattern's final part (the class
as written in the source includes the literal `|`). -/
def isTldChar (c : Char) : Bool := c.isAlpha || c = '|'

/-- Greedy `[A-Z|a-z]{2,}\b` at the front of `l`: the longest run of at least
two class characters after which a word boundary holds.  Returns the number of
consumed characters. -/
def tldTry : Nat → List Char → Option Nat
  | 0, _ => none
  | 1, _ => none
  | Nat.succ (Nat.succ j), l =>
    let k := j + 2
    if boundaryB (l.get? (k - 1)) (l.get? k) then some k else tldTry (j + 1) l

def tldMatch (l : List Char) : Option Nat :=
  tldTry (l.takeWhile isTldChar).length l

/-- Greedy `[A-Za-z0-9.-]+\.[A-Z|a-z]{2,}\b` at the front of `l`, trying the
longest run for the `+` first (Python backtracking order). -/
def domTry : Nat → List Char → Option Nat
  | 0, _ => none
  | Nat.succ i, l =>
    let xlen := i + 1
    match l.drop xlen with
    | '.' :: r =>
      match tldMatch r with
      | some j => some (xlen + 1 + j)
      | none => domTry i l
    | _ => domTry i l

def domMatch (l : List Char) : Option Nat :=
  domTry (l.takeWhile isDomChar).length l

/-- One attempt of the email pattern
`\b[A-Za-z0-9._%+-]+@[A-Za-z0-9.-]+\.[A-Z|a-z]{2,}\b` at the current position
(`prev` is the character just before it).  Returns the match and the rest. -/
def emailMatchAt (prev : Option Char) (l : List Char) : Option (List Char × List Char) :=
  let loc := l.takeWhile isLocalChar
  match loc with
  | [] => none
  | c :: _ =>
    if boundaryB prev (some c) then
      match l.drop loc.length with
      | '@' :: r =>
        match domMatch r with
        | some k => some (loc ++ '@' :: r.take k, r.drop k)
        | none => none
      | _ => none
    else none

def emailScan : Nat → Option Char → List Char → List String
  | 0, _, _ => []
  | Nat.succ f, prev, l =>
    match l with
    | [] => []
    | c :: rest =>
      match emailMatchAt prev l with
      | some (m, r) => String.mk m :: emailScan f m.getLast? r
      | none => emailScan f (some c) rest

/-- `re.findall` of the source's email pattern. -/
def emailFindall (s : String) : List String :=
  emailScan (s.toList.length + 1) none s.toList

/-- Character class `[\s\-\(\)]` of the phone pattern. -/
def isSep3 (c : Char) : Bool := isPySpace c || c = '-' || c = '(' || c = ')'

/-- Character class `[\s\-]` of the phone pattern. -/
def isSep5 (c : Char) : Bool := isPySpace c || c = '-'

/-- Greedy optional single-class character with backtracking: consume it if
that lets the continuation succeed, otherwise skip it. -/
def pOpt (p : Char → Bool) (k : List Char → Option Nat) (l : List Char) : Option Nat :=
  match l with
  | [] => k []
  | c :: r =>
    if p c then
      match k r with
      | some n => some (n + 1)
      | none => k (c :: r)
    else k (c :: r)

/-- Exactly `n` digits, then the continuation. -/
def pDigits : Nat → (List Char → Option Nat) → List Char → Option Nat
  | 0, k, l => k l
  | Nat.succ n, k, l =>
    match l with
    | c :: r => if c.isDigit then (pDigits n k r).map (· + 1) else none
    | [] => none

/-- One attempt of the phone pattern
`[\+]?[1-9]?[\s\-\(\)]?\d{3}[\s\-\(\)]?\d{3}[\s\-]?\d{4}` at the current
position; returns the number of consumed characters. -/
def phoneMatchAt (l : List Char) : Option Nat :=
  pOpt (fun c => c = '+')
    (pOpt (fun c => '1' ≤ c && c ≤ '9')
      (pOpt isSep3
        (pDigits 3
          (pOpt isSep3
            (pDigits 3
              (pOpt isSep5
                (pDigits 4 (fun _ => some 0)))))))) l

def phoneScan : Nat → List Char → List String
  | 0, _ => []
  | Nat.succ f, l =>
    match l with
    | [] => []
    | c :: rest =>
      match phoneMatchAt l with
      | some n => String.mk (l.take n) :: phoneScan f (l.drop n)
      | none =>
        match c with
        | _ => phoneScan f rest

/-- `re.findall` of the source's phone pattern. -/
def phoneFindall (s : String) : List String :=
  phoneScan (s.toList.length + 1) s.toList

/-- Characters of the (case-insensitive) literals of the FAQ fallback pattern
`Q[:\.]?\s*([^?]*\?)\s*A[:\.]?\s*([^Q]*?)(?=Q[:\.]|$)`. -/
def isQch (c : Char) : Bool := c = 'Q' || c = 'q'

def isAch (c : Char) : Bool := c = 'A' || c = 'a'

def isColonDot (c : Char) : Bool := c = ':' || c = '.'

/-- The lookahead `(?=Q[:\.]|$)` (without `re.MULTILINE`, `$` also matches
just before a single trailing newline). -/
def qaLook : List Char → Bool
  | [] => true
  | [c] => c = '\n'
  | a :: b :: _ => isQch a && isColonDot b

/-- The lazy `([^Q]*?)(?=Q[:\.]|$)` part: consume non-`Q` characters up to the
first position where the lookahead holds; fail on a `Q` where it does not. -/
def qaAnswer : List Char → Option (List Char × List Char)
  | [] => some ([], [])
  | c :: r =>
    if qaLook (c :: r) then some ([], c :: r)
    else if isQch c then none
    else (qaAnswer r).map (fun p => (c :: p.1, p.2))

/-- Python's optional `[:\.]?` (greedy: consumed when present; for this
pattern consuming never turns a success into a failure, see the walls of
`qaAnswer`). -/
def dropColonDot (l : List Char) : List Char :=
  match l with
  | d :: r => if isColonDot d then r else d :: r
  | [] => []

/-- One attempt of the FAQ fallback pattern at the current position; returns
the two captures (question with its trailing `?`, answer) and the rest. -/
def qaMatchAt (l : List Char) : Option (String × String × List Char) :=
  match l with
  | [] => none
  | c :: r =>
    if isQch c then
      let r2 := (dropColonDot r).dropWhile isPySpace
      let qchars := r2.takeWhile (fun d => !(d = '?'))
      match r2.drop qchars.length with
      | '?' :: r3 =>
        let r4 := r3.dropWhile isPySpace
        match r4 with
        | a :: r5 =>
          if isAch a then
            let r6 := (dropColonDot r5).dropWhile isPySpace
            match qaAnswer r6 with
            | some (ans, rest) => some (String.mk (qchars ++ ['?']), String.mk ans, rest)
            | none => none
          else none
        | [] => none
      | _ => none
    else none

def qaScan : Nat → List Char → List (String × String)
  | 0, _ => []
  | Nat.succ f, l =>
    match l with
    | [] => []
    | _ :: rest =>
      match qaMatchAt l with
      | some (q, a, r) => (q, a) :: qaScan f r
      | none => qaScan f rest

/-- `re.findall` of the source's FAQ fallback pattern. -/
def qaFindall (s : String) : List (String × String) :=
  qaScan (s.toList.length + 1) s.toList

/-! ## URL helpers (`urllib.parse` model for http(s) URLs) -/

/-- The suffix after the first occurrence of `pat` ("" when absent). -/
def afterFirstSub (pat s : String) : String :=
  match firstOcc pat.toList s.toList with
  | some k => String.mk (s.toList.drop (k + pat.toList.length))
  | none => ""

/-- `urlparse(url).netloc`, modelled for the absolute http(s) URLs this
program builds (everything between `://` and the first `/`, `?` or `#`). -/
def netlocOf (url : String) : String :=
  if inStr "://" url then
    String.mk ((afterFirstSub "://" url).toList.takeWhile
      (fun c => !(c = '/' || c = '?' || c = '#')))
  else ""

/-- `urljoin(base, ref)`, modelled for absolute http(s) bases and references
without dot segments — the only uses in the source. -/
def urljoin (base ref : String) : String :=
  if inStr "://" ref then ref
  else if pyStartsWith ref "//" then beforeFirstSub "://" base ++ ":" ++ ref
  else
    let scheme := beforeFirstSub "://" base
    let host := netlocOf base
    let origin := scheme ++ "://" ++ host
    if pyStartsWith ref "/" then origin ++ ref
    else
      let path := String.mk ((afterFirstSub "://" base).toList.dropWhile
        (fun c => !(c = '/')))
      let dir := String.mk (beforeLastSlash path.toList)
      origin ++ dir ++ ref
where beforeLastSlash (l : List Char) : List Char :=
  (l.reverse.dropWhile (fun c => !(c = '/'))).reverse

/-! ## Data model (the Pydantic models of the source) -/

/-- An opaque key/value record (a JSON object passed through verbatim). -/
abbrev Dict := List (String × String)

structure ProductModel where
  id : Option String := none
  title : Option String := none
  description : Option String := none
  price : Option String := none
  images : List String := []
  variants : List Dict := []
deriving DecidableEq, Repr

structure ContactDetails where
  emails : List String := []
  phone_numbers : List String := []
  addresses : List String := []
deriving DecidableEq, Repr

structure SocialHandles where
  instagram : Option String := none
  facebook : Option String := none
  twitter : Option String := none
  tiktok : Option String := none
  youtube : Option String := none
  linkedin : Option String := none
deriving DecidableEq, Repr

structure FAQ where
  question : String
  answer : String
deriving DecidableEq, Repr

structure ImportantLinks where
  order_tracking : Option String := none
  contact_us : Option String := none
  blogs : Option String := none
  shipping_info : Option String := none
  size_guide : Option String := none
deriving DecidableEq, Repr

structure BrandInsightsModel where
  website_url : String
  brand_name : Option String := none
  product_catalog : List ProductModel := []
  hero_products : List ProductModel := []
  privacy_policy : Option String := none
  return_refund_policy : Option String := none
  faqs : List FAQ := []
  social_handles : SocialHandles := {}
  contact_details : ContactDetails := {}
  brand_context : Option String := none
  important_links : ImportantLinks := {}
  competitors : List Dict := []
deriving DecidableEq, Repr

/-- One entry of a `products.json` response.  `id`/`title` are the already
JSON-decoded (string-rendered) fields with `none` for a missing key;
`body_html` is the product description markup, carried here in parsed form
(the source parses the raw string with `html.parser` before calling
`get_text`); `variants` is `none` when the `variants` key is absent. -/
structure RawProduct where
  id : Option String := none
  title : Option String := none
  body_html : Node := Node.elem "[document]" [] []
  images : List Dict := []
  variants : Option (List Dict) := none

/-- The exception a facet can raise in this embedding: the `IndexError` of
`product.get('variants', [{}])[0]` on an empty variants list. -/
inductive NormErr where
  | indexError
deriving DecidableEq, Repr

/-- The client-visible failures of the orchestrator: the 401 reachability
error and the generic 500 internal error. -/
inductive FetchErr where
  | unreachable
  | internal
deriving DecidableEq, Repr

/-! ## CatalogPaginator (`fetch_product_catalog`) -/

/-- Normalization of one catalog entry (the `ProductModel(...)` construction
inside the pagination loop of `fetch_product_catalog`). -/
def normalizeProduct (p : RawProduct) : Except NormErr ProductModel :=
  match p.variants.getD [[]] with
  | [] => .error .indexError
  | v :: _ =>
    .ok {
      id := some (p.id.getD "")
      title := some (p.title.getD "")
      description := some (takeChars 500 (getTextAll p.body_html))
      price := some ((lookupA "price" v).getD "0")
      images := p.images.map (fun im => (lookupA "src" im).getD "")
      variants := p.variants.getD [] }

/-- The `for product in data['products']` body: normalize every entry,
propagating the first exception. -/
def normList : List RawProduct → Except NormErr (List ProductModel)
  | [] => .ok []
  | p :: ps =>
    match normalizeProduct p with
    | .error e => .error e
    | .ok m =>
      match normList ps with
      | .error e => .error e
      | .ok ms => .ok (m :: ms)

/-- The `while True` pagination loop.  The argument is the finite list of
successive `{base}/products.json?limit=250&page=n` responses (their
`products` lists; a missing/empty `products` key is the empty list, and the
server answers `{}` — hence `[]` — after the list is exhausted, which is what
`fetch_json` returns on any error).  The result carries the accumulated
products and the number of fetches issued. -/
def fetchLoop : List (List RawProduct) → Except NormErr (List ProductModel × Nat)
  | [] => .ok ([], 1)
  | pg :: rest =>
    if pg.isEmpty then .ok ([], 1)
    else
      match normList pg with
      | .error e => .error e
      | .ok ms =>
        if pg.length < 250 then .ok (ms, 1)
        else
          match fetchLoop rest with
          | .error e => .error e
          | .ok (more, n) => .ok (ms ++ more, n + 1)

/-- `fetch_product_catalog`, returning the normalized catalog. -/
def fetch_product_catalog (pages : List (List RawProduct)) : Except NormErr (List ProductModel) :=
  (fetchLoop pages).map Prod.fst

/-! ## BrandNameExtractor (`extract_brand_name`) -/

/-- The `{'class': re.compile(r'logo', re.I)}` filter: some class token
matches the case-insensitive search for `logo`. -/
def logoClass (n : Node) : Bool :=
  match getAttr n "class" with
  | some v => (wsTokens v).any (fun t => inStr "logo" (pyLower t))
  | none => false

/-- The `if not brand_name:` chaining of the fallback methods: keep `a`
when it is truthy (non-empty), otherwise move on to `b`. -/
def firstTruthy (a b : String) : String := if a ≠ "" then a else b

/-- Method 1: the `og:site_name` meta content (`""` both when the tag is
missing and when its `content` attribute is — `None` and `""` are equally
falsy downstream). -/
def brandFromMeta (soup : Node) : String :=
  match findFirst (fun n => decide (tagOf n = "meta") &&
      decide (getAttr n "property" = some "og:site_name")) soup with
  | some m => (getAttr m "content").getD ""
  | none => ""

/-- Method 2: `title.get_text().split('|')[0].split('-')[0].strip()`. -/
def brandFromTitle (soup : Node) : String :=
  match findFirst (fun n => decide (tagOf n = "title")) soup with
  | some t => pyStrip (beforeFirstSub "-" (beforeFirstSub "|" (getTextAll t)))
  | none => ""

/-- Method 3: the alt text of an image whose class matches `logo`
case-insensitively. -/
def brandFromLogo (soup : Node) : String :=
  match findFirst (fun n => decide (tagOf n = "img") && logoClass n) soup with
  | some im => (getAttr im "alt").getD ""
  | none => ""

/-- Method 4: `domain.replace('www.', '').split('.')[0].capitalize()`. -/
def brandFromDomain (url : String) : String :=
  pyCapitalize (beforeFirstSub "." (pyReplace (netlocOf url) "www." ""))

def extract_brand_name (soup : Node) (url : String) : String :=
  firstTruthy (brandFromMeta soup)
    (firstTruthy (brandFromTitle soup)
      (firstTruthy (brandFromLogo soup)
        (firstTruthy (brandFromDomain url) "Unknown Brand")))

/-! ## HeroProductMatcher (`extract_hero_products`) -/

/-- `soup.find_all('a', href=re.compile(r'/products/'))`. -/
def productAnchors (soup : Node) : List Node :=
  (soupElems soup).filter (fun n => decide (tagOf n = "a") &&
    (match getAttr n "href" with
     | some h => inStr "/products/" h
     | none => false))

/-- Candidate handles collected from a list of anchors:
`href.split('/products/')[-1].split('?')[0]`. -/
def handlesOf (links : List Node) : List String :=
  links.filterMap (fun l =>
    let href := (getAttr l "href").getD ""
    if inStr "/products/" href then
      some (beforeFirstSub "?" (afterLastSub "/products/" href))
    else none)

/-- `product.title and any(handle.lower() in product.title.lower().replace(' ', '-') ...)`. -/
def heroPred (handles : List String) (p : ProductModel) : Bool :=
  match p.title with
  | none => false
  | some t =>
    !t.toList.isEmpty &&
      handles.any (fun h => inStr (pyLower h) (pyReplace (pyLower t) " " "-"))

/-- The matching loop over the catalog, stopping once 6 heroes are collected. -/
def heroLoop (handles : List String) (acc : List ProductModel) :
    List ProductModel → List ProductModel
  | [] => acc
  | p :: ps =>
    if heroPred handles p then
      let acc2 := acc ++ [p]
      if 6 ≤ acc2.length then acc2 else heroLoop handles acc2 ps
    else heroLoop handles acc ps

def extract_hero_products (soup : Node) (all_products : List ProductModel) : List ProductModel :=
  heroLoop (handlesOf ((productAnchors soup).take 10)) [] all_products

/-! ## FaqExtractor (`extract_faqs`) -/

def faq_selectors : List Sel :=
  [.cls "faq-item", .cls "faq", .cls "accordion-item", .cls "question-answer", .cls "qa-item"]

/-- The name lists passed to `element.find([...])`.  BeautifulSoup treats the
entries as tag names, so the `.question`-style entries never match a parsed
tag; they are kept verbatim. -/
def questionTags : List String := ["h2", "h3", "h4", "h5", ".question", ".faq-question"]

def answerTags : List String := [".answer", ".faq-answer", "p"]

/-- Per-container question/answer extraction of the structural strategy. -/
def faqFromElem (el : Node) : Option FAQ :=
  match findFirst (fun n => questionTags.contains (tagOf n)) el,
        findFirst (fun n => answerTags.contains (tagOf n)) el with
  | some qe, some ae =>
    let q := getTextStrip qe
    let a := getTextStrip ae
    if !q.toList.isEmpty && !a.toList.isEmpty && decide (10 < q.length) then
      some ⟨q, a⟩
    else none
  | _, _ => none

/-- The structural (selector-based) strategy of `extract_faqs`. -/
def structuralFaqs (soup : Node) : List FAQ :=
  (faq_selectors.map (fun sel => (selectAll soup sel).filterMap faqFromElem)).flatten

/-- The regex fallback strategy of `extract_faqs` over the page text. -/
def fallbackFaqs (text : String) : List FAQ :=
  ((qaFindall text).take 10).filterMap (fun qa =>
    let q := pyStrip qa.1
    let a := takeChars 300 (pyStrip qa.2)
    if !q.toList.isEmpty && !a.toList.isEmpty then some ⟨q, a⟩ else none)

def extract_faqs (soup : Node) : List FAQ :=
  let faqs := structuralFaqs soup
  let faqs2 := if faqs.isEmpty then fallbackFaqs (getTextAll soup) else faqs
  faqs2.take 15

/-! ## SocialHandleExtractor (`extract_social_handles`) -/

/-- The alternation of the `find_all` filter regex
`(instagram|facebook|twitter|tiktok|youtube|linkedin)\.com` — note `x.com`
is not part of it. -/
def socialDomains : List String :=
  ["instagram.com", "facebook.com", "twitter.com", "tiktok.com", "youtube.com", "linkedin.com"]

/-- `soup.find_all('a', href=re.compile(r'(instagram|...|linkedin)\.com'))`. -/
def socialAnchors (soup : Node) : List Node :=
  (soupElems soup).filter (fun n => decide (tagOf n = "a") &&
    (match getAttr n "href" with
     | some h => socialDomains.any (fun d => inStr d h)
     | none => false))

/-- The `if/elif` chain classifying one scanned anchor. -/
def updSocial (s : SocialHandles) (n : Node) : SocialHandles :=
  let href := pyLower ((getAttr n "href").getD "")
  if inStr "instagram.com" href then { s with instagram := some href }
  else if inStr "facebook.com" href then { s with facebook := some href }
  else if inStr "twitter.com" href || inStr "x.com" href then { s with twitter := some href }
  else if inStr "tiktok.com" href then { s with tiktok := some href }
  else if inStr "youtube.com" href then { s with youtube := some href }
  else if inStr "linkedin.com" href then { s with linkedin := some href }
  else s

def extract_social_handles (soup : Node) : SocialHandles :=
  (socialAnchors soup).foldl updSocial {}

/-! ## ContactDetailExtractor (`extract_contact_details`) -/

def isImageEmail (e : String) : Bool :=
  pyEndsWith e ".png" || pyEndsWith e ".jpg" || pyEndsWith e ".gif"

def extract_contact_details (soup : Node) : ContactDetails :=
  let text := getTextAll soup
  let emails :=
    ((dedupFirst (emailFindall text)).filter (fun e => !isImageEmail e)).take 5
  let phones := ((dedupFirst (phoneFindall text)).map pyStrip).take 3
  { emails := emails, phone_numbers := phones, addresses := [] }

/-! ## BrandContextExtractor (`extract_brand_context`) -/

def about_selectors : List Sel :=
  [.cls "about", .cls "brand-story", .cls "our-story", .cls "company-info",
   .attrHas "class" "about"]

/-- First selector/path that yields a value (the `for ...: return` pattern). -/
def firstSome {α β : Type} (f : α → Option β) : List α → Option β
  | [] => none
  | x :: xs =>
    match f x with
    | some b => some b
    | none => firstSome f xs

/-- The meta-description content used by the fallback of
`extract_brand_context` ("" when the tag or its `content` is missing). -/
def metaDescContent (soup : Node) : String :=
  match findFirst (fun n => decide (tagOf n = "meta") &&
      decide (getAttr n "name" = some "description")) soup with
  | some m => (getAttr m "content").getD ""
  | none => ""

def extract_brand_context (soup : Node) : Option String :=
  match firstSome (fun sel =>
      match selectOne soup sel with
      | some el =>
        let t := getTextSepStrip el
        if 50 < t.length then some (takeChars 1000 t) else none
      | none => none) about_selectors with
  | some t => some t
  | none =>
    let content := metaDescContent soup
    if 50 < content.length then some content else none

/-! ## ImportantLinkClassifier (`extract_important_links`) -/

/-- `soup.find_all('a', href=True)`. -/
def hrefAnchors (soup : Node) : List Node :=
  (soupElems soup).filter (fun n => decide (tagOf n = "a") && (getAttr n "href").isSome)

/-- `link.get_text().lower().strip()`. -/
def anchorText (n : Node) : String := pyStrip (pyLower (getTextAll n))

/-- The href, resolved against the base when it does not start with `http`. -/
def resolvedHref (base : String) (n : Node) : String :=
  let href := (getAttr n "href").getD ""
  if pyStartsWith href "http" then href else urljoin base href

def matchTrack (t : String) : Bool := inStr "track" t || inStr "order" t || inStr "tracking" t

def matchContact (t : String) : Bool := inStr "contact" t || inStr "contact us" t

def matchBlog (t : String) : Bool := inStr "blog" t || inStr "news" t || inStr "articles" t

def matchShip (t : String) : Bool := inStr "shipping" t || inStr "delivery" t

def matchSize (t : String) : Bool := inStr "size" t || inStr "guide" t || inStr "sizing" t

/-- The `if/elif` chain classifying one anchor. -/
def updLinks (base : String) (s : ImportantLinks) (n : Node) : ImportantLinks :=
  let text := anchorText n
  let href := resolvedHref base n
  if matchTrack text then { s with order_tracking := some href }
  else if matchContact text then { s with contact_us := some href }
  else if matchBlog text then { s with blogs := some href }
  else if matchShip text then { s with shipping_info := some href }
  else if matchSize text then { s with size_guide := some href }
  else s

def extract_important_links (soup : Node) (base_url : String) : ImportantLinks :=
  (hrefAnchors soup).foldl (updLinks base_url) {}

/-! ## PolicyContentExtractor and the network world -/

/-- The network as the orchestrator sees it: `fetch_page` by URL (`none`
models the `HTTPException` raised on transport/status failure), and the
successive `products.json` responses consumed by the paginator (see
`fetchLoop`). -/
structure World where
  fetchPage : String → Option Node
  catalogPages : List (List RawProduct)

def content_selectors : List Sel :=
  [.cls "page-content", .cls "main-content", .cls "policy-content",
   .tagSel "article", .tagSel "main", .cls "content", .idSel "content"]

/-- Content extraction from one successfully fetched policy page. -/
def policyFromSoup (soup : Node) : Option String :=
  match firstSome (fun sel =>
      match selectOne soup sel with
      | some el =>
        let t := getTextSepStrip el
        if 100 < t.length then some (takeChars 2000 t) else none
      | none => none) content_selectors with
  | some t => some t
  | none =>
    let body := getTextSepStrip soup
    if 100 < body.length then some (takeChars 2000 body) else none

def privacy_paths : List String :=
  ["/pages/privacy-policy", "/privacy-policy", "/privacy", "/pages/privacy"]

def refund_paths : List String :=
  ["/pages/refund-policy", "/pages/return-policy", "/refund-policy", "/return-policy",
   "/pages/returns", "/returns", "/pages/refunds", "/refunds"]

/-- `fetch_policy_content`: per-path fetch with failures caught and treated
as try-next. -/
def fetch_policy_content (w : World) (base_url : String) (policy_type : String) : Option String :=
  let paths :=
    if policy_type = "privacy" then privacy_paths
    else if policy_type = "refund" then refund_paths
    else []
  firstSome (fun path =>
    match w.fetchPage (urljoin base_url path) with
    | none => none
    | some soup => policyFromSoup soup) paths

/-! ## InsightsOrchestrator (`fetch_store_insights`) -/

/-- The orchestrator.  The only `try/except` around the facet section is the
top-level one of the source: a facet exception that is not already absorbed
inside `fetch_json` or `fetch_policy_content` (here: the normalization
`IndexError` of the catalog fetch) escapes to the blanket handler and becomes
the generic 500 error; homepage fetch failure becomes the 401 error. -/
def fetch_store_insights (w : World) (website_url : String) : Except FetchErr BrandInsightsModel :=
  let url :=
    if pyStartsWith website_url "http://" || pyStartsWith website_url "https://" then website_url
    else "https://" ++ website_url
  match w.fetchPage url with
  | none => .error .unreachable
  | some soup =>
    let brand_name := extract_brand_name soup url
    match fetch_product_catalog w.catalogPages with
    | .error _ => .error .internal
    | .ok product_catalog =>
      .ok {
        website_url := url
        brand_name := some brand_name
        product_catalog := product_catalog
        hero_products := extract_hero_products soup product_catalog
        privacy_policy := fetch_policy_content w url "privacy"
        return_refund_policy := fetch_policy_content w url "refund"
        faqs := extract_faqs soup
        social_handles := extract_social_handles soup
        contact_details := extract_contact_details soup
        brand_context := extract_brand_context soup
        important_links := extract_important_links soup url
        competitors := [] }

/-! ## Derived notions used by the theorems -/

/-- The normalized forms of the entries that normalize successfully; when all
entries do, this is exactly what the pagination loop accumulates, in page
order. -/
def okCatalog (l : List RawProduct) : List ProductModel :=
  l.filterMap (fun p => (normalizeProduct p).toOption)

/-- The branch condition of the `elif` assigning the twitter field in
`extract_social_handles` (reached only when the instagram and facebook
branches did not fire). -/
def twitterBranch (n : Node) : Bool :=
  let href := pyLower ((getAttr n "href").getD "")
  !inStr "instagram.com" href && !inStr "facebook.com" href &&
    (inStr "twitter.com" href || inStr "x.com" href)

/-- The lower-cased href of an anchor, as assigned by
`extract_social_handles`. -/
def lowHref (n : Node) : String := pyLower ((getAttr n "href").getD "")

/-! ## Concrete fixtures for the closed theorems -/

/-- Homepage carrying only `<title>Acme | Home</title>`. -/
def sAcme : Node := .elem "[document]" [] [.elem "title" [] [.text "Acme | Home"]]

/-- Homepage with no title, meta or logo at all. -/
def sBare : Node := .elem "[document]" [] []

/-- Page whose only text is a short-question `Q/A` pattern and which matches
no structural FAQ selector. -/
def s5 : Node :=
  .elem "[document]" [] [.elem "body" [] [.text "Q: Why? A: Because it works."]]

/-- Page with one structural FAQ container. -/
def sW : Node :=
  .elem "[document]" []
    [.elem "div" [("class", "faq")]
      [.elem "h2" [] [.text "What is your policy?"],
       .elem "p" [] [.text "Answer text."]]]

/-- An anchor whose text matches the tracking, contact and shipping keyword
sets at once. -/
def a6 : Node := .elem "a" [("href", "https://shop.com/t")] [.text "Track Contact Shipping"]

def s6 : Node := .elem "[document]" [] [a6]

/-- An anchor whose href contains `x.com` and none of the six platform
domains of the `find_all` filter. -/
def a7 : Node := .elem "a" [("href", "https://x.com/brand")] [.text "X"]

def s7 : Node := .elem "[document]" [] [a7]

/-- Page text containing seven distinct valid emails, two of which end in
`.png`. -/
def s9 : Node :=
  .elem "[document]" []
    [.text "a1@ex.com b2@ex.com c3@ex.com d4@ex.com e5@ex.com f6@cdn.png g7@img.png"]

/-- Page whose only brand-context source is a 1001-character meta
description. -/
def s8 : Node :=
  .elem "[document]" []
    [.elem "meta" [("name", "description"),
        ("content", String.mk (List.replicate 1001 'a'))] []]

/-- Page with an about section of 60 characters. -/
def s8w : Node :=
  .elem "[document]" []
    [.elem "div" [("class", "about")] [.text (String.mk (List.replicate 60 'b'))]]

def p1 : ProductModel := { title := some "Red Shirt" }

def p2 : ProductModel := { title := some "Blue Pants" }

def p3 : ProductModel := { title := some "Green Hat" }

def cat3 : List ProductModel := [p1, p2, p3]

/-- Homepage with two product links. -/
def sH : Node :=
  .elem "[document]" []
    [.elem "a" [("href", "/products/red-shirt?v=1")] [.text "x"],
     .elem "a" [("href", "/products/green-hat")] [.text "y"]]

/-- `sH` with an additional non-product anchor appended. -/
def sHb : Node :=
  .elem "[document]" []
    [.elem "a" [("href", "/products/red-shirt?v=1")] [.text "x"],
     .elem "a" [("href", "/products/green-hat")] [.text "y"],
     .elem "a" [("href", "/pages/contact")] [.text "z"]]

/-- A catalog entry whose `variants` field is present but empty: the input on
which first-variant indexing is out of bounds. -/
def badP : RawProduct := { title := some "Bad", variants := some [] }

/-- A well-formed catalog entry. -/
def goodP : RawProduct :=
  { id := some "1", title := some "Good", variants := some [[("price", "9.99")]] }

/-- A catalog entry with no `variants` key at all. -/
def noVarP : RawProduct := { title := some "NoVar" }

/-- A catalog entry whose first variant has no `price` key. -/
def noPriceP : RawProduct := { title := some "NoPrice", variants := some [[("sku", "1")]] }

/-- A reachable homepage for the orchestrator fixtures. -/
def home : Node := .elem "[document]" [] [.elem "title" [] [.text "Acme | Home"]]

/-- A world with a reachable homepage whose catalog listing contains the
empty-variants entry, making the catalog facet raise. -/
def w0 : World :=
  { fetchPage := fun u => if u = "https://shop.com" then some home else none
    catalogPages := [[badP]] }

/-! ## Helper lemmas -/

theorem str_len_pos (s : String) (h : s ≠ "") : 0 < s.length := by
  cases s with
  | mk l =>
    cases l with
    | nil => exact absurd rfl h
    | cons c r => simp [String.length]

theorem firstTruthy_ne (a b : String) (h : b ≠ "") : firstTruthy a b ≠ "" := by
  unfold firstTruthy
  split
  · next ha => exact ha
  · exact h

theorem normList_ok (l : List RawProduct)
    (h : ∀ p ∈ l, (normalizeProduct p).isOk = true) :
    normList l = .ok (okCatalog l) := by
  induction l with
  | nil => rfl
  | cons p ps ih =>
    have hp := h p (List.mem_cons_self p ps)
    cases hn : normalizeProduct p with
    | error e => rw [hn] at hp; simp [Except.isOk, Except.toBool] at hp
    | ok m =>
      have hps := ih (fun q hq => h q (List.mem_cons_of_mem p hq))
      simp [normList, okCatalog, List.filterMap_cons, hn, hps, Except.toOption]

theorem okCatalog_len (l : List RawProduct)
    (h : ∀ p ∈ l, (normalizeProduct p).isOk = true) :
    (okCatalog l).length = l.length := by
  induction l with
  | nil => rfl
  | cons p ps ih =>
    have hp := h p (List.mem_cons_self p ps)
    cases hn : normalizeProduct p with
    | error e => rw [hn] at hp; simp [Except.isOk, Except.toBool] at hp
    | ok m =>
      simp [okCatalog, List.filterMap_cons, hn, Except.toOption]
      simpa [okCatalog] using ih (fun q hq => h q (List.mem_cons_of_mem p hq))

theorem okCatalog_append (a b : List RawProduct) :
    okCatalog (a ++ b) = okCatalog a ++ okCatalog b := by
  simp [okCatalog, List.filterMap_append]

theorem fetchLoop_stop (pg : List RawProduct) (r1 r2 : List (List RawProduct))
    (h : pg.length < 250) : fetchLoop (pg :: r1) = fetchLoop (pg :: r2) := by
  by_cases he : pg.isEmpty
  · simp [fetchLoop, he]
  · cases hn : normList pg with
    | error e => simp [fetchLoop, he, hn]
    | ok ms => simp [fetchLoop, he, hn, h]

theorem flatten_len_const {α : Type} :
    ∀ L : List (List α), (∀ pg ∈ L, pg.length = 250) →
      L.flatten.length = 250 * L.length := by
  intro L
  induction L with
  | nil => simp
  | cons a as ih =>
    intro h
    simp [List.flatten_cons, h a (by simp),
      ih (fun pg hp => h pg (by simp [hp]))]
    ring

theorem heroLoop_cons (handles : List String) (acc : List ProductModel)
    (p : ProductModel) (ps : List ProductModel) :
    heroLoop handles acc (p :: ps) =
      if heroPred handles p = true then
        (if 6 ≤ (acc ++ [p]).length then acc ++ [p] else heroLoop handles (acc ++ [p]) ps)
      else heroLoop handles acc ps := rfl

theorem heroLoop_sub (handles : List String) :
    ∀ (rest acc : List ProductModel),
      ∃ t, heroLoop handles acc rest = acc ++ t ∧ List.Sublist t rest := by
  intro rest
  induction rest with
  | nil => intro acc; exact ⟨[], by simp [heroLoop], List.nil_sublist []⟩
  | cons p ps ih =>
    intro acc
    by_cases hp : heroPred handles p = true
    · by_cases h6 : 6 ≤ (acc ++ [p]).length
      · refine ⟨[p], ?_, (List.nil_sublist ps).cons₂ p⟩
        rw [heroLoop_cons, if_pos hp, if_pos h6]
      · obtain ⟨t, ht, hs⟩ := ih (acc ++ [p])
        refine ⟨p :: t, ?_, hs.cons₂ p⟩
        rw [heroLoop_cons, if_pos hp, if_neg h6, ht]
        simp
    · obtain ⟨t, ht, hs⟩ := ih acc
      exact ⟨t, by rw [heroLoop_cons, if_neg hp, ht], hs.cons p⟩

theorem heroLoop_len (handles : List String) :
    ∀ (rest acc : List ProductModel), acc.length < 6 →
      (heroLoop handles acc rest).length ≤ 6 := by
  intro rest
  induction rest with
  | nil => intro acc h; simpa [heroLoop] using Nat.le_of_lt h
  | cons p ps ih =>
    intro acc h
    by_cases hp : heroPred handles p = true
    · by_cases h6 : 6 ≤ (acc ++ [p]).length
      · rw [heroLoop_cons, if_pos hp, if_pos h6]
        simp only [List.length_append, List.length_cons, List.length_nil]
        omega
      · rw [heroLoop_cons, if_pos hp, if_neg h6]
        exact ih (acc ++ [p]) (by
          simp only [List.length_append, List.length_cons, List.length_nil] at h6 ⊢
          omega)
    · rw [heroLoop_cons, if_neg hp]
      exact ih acc h

theorem foldl_last_update {σ α β : Type} (f : σ → α → σ) (proj : σ → Option β)
    (p : α → Bool) (v : α → β)
    (h : ∀ s a, proj (f s a) = if p a = true then some (v a) else proj s) :
    ∀ (l : List α) (s : σ),
      proj (l.foldl f s) =
        match (l.filter p).getLast? with
        | some a => some (v a)
        | none => proj s := by
  intro l
  induction l using List.reverseRecOn with
  | nil => intro s; simp
  | append_singleton as a ih =>
    intro s
    rw [List.foldl_append]
    simp only [List.foldl_cons, List.foldl_nil]
    rw [h]
    by_cases hp : p a = true
    · rw [if_pos hp, List.filter_append]
      simp [List.filter_cons, hp, List.getLast?_concat]
    · rw [if_neg hp, ih s, List.filter_append]
      simp [List.filter_cons, hp]

theorem updLinks_track (base : String) (s : ImportantLinks) (n : Node) :
    (updLinks base s n).order_tracking =
      if matchTrack (anchorText n) = true then some (resolvedHref base n)
      else s.order_tracking := by
  simp only [updLinks]
  split_ifs <;> simp_all

theorem updLinks_contact (base : String) (s : ImportantLinks) (n : Node) :
    (updLinks base s n).contact_us =
      if (!matchTrack (anchorText n) && matchContact (anchorText n)) = true then
        some (resolvedHref base n)
      else s.contact_us := by
  simp only [updLinks]
  split_ifs <;> simp_all

theorem updLinks_blog (base : String) (s : ImportantLinks) (n : Node) :
    (updLinks base s n).blogs =
      if (!matchTrack (anchorText n) && !matchContact (anchorText n) &&
          matchBlog (anchorText n)) = true then
        some (resolvedHref base n)
      else s.blogs := by
  simp only [updLinks]
  split_ifs <;> simp_all

theorem updLinks_ship (base : String) (s : ImportantLinks) (n : Node) :
    (updLinks base s n).shipping_info =
      if (!matchTrack (anchorText n) && !matchContact (anchorText n) &&
          !matchBlog (anchorText n) && matchShip (anchorText n)) = true then
        some (resolvedHref base n)
      else s.shipping_info := by
  simp only [updLinks]
  split_ifs <;> simp_all

theorem updLinks_size (base : String) (s : ImportantLinks) (n : Node) :
    (updLinks base s n).size_guide =
      if (!matchTrack (anchorText n) && !matchContact (anchorText n) &&
          !matchBlog (anchorText n) && !matchShip (anchorText n) &&
          matchSize (anchorText n)) = true then
        some (resolvedHref base n)
      else s.size_guide := by
  simp only [updLinks]
  split_ifs <;> simp_all

theorem updSocial_twitter (s : SocialHandles) (n : Node) :
    (updSocial s n).twitter =
      if twitterBranch n = true then some (lowHref n) else s.twitter := by
  simp only [updSocial, twitterBranch, lowHref]
  split_ifs <;> simp_all

theorem ne_empty_of_toList (s : String) (h : s.toList.isEmpty = false) : s ≠ "" := by
  intro he
  subst he
  exact absurd h (by decide)

theorem faqFromElem_some (el : Node) (f : FAQ) (h : faqFromElem el = some f) :
    f.question ≠ "" ∧ f.answer ≠ "" ∧ 10 < f.question.length := by
  unfold faqFromElem at h
  split at h
  · dsimp only at h
    split at h
    · next hcond =>
      injection h with h2
      subst h2
      simp only [Bool.and_eq_true, decide_eq_true_eq, Bool.not_eq_true'] at hcond
      obtain ⟨⟨hq, ha⟩, hlen⟩ := hcond
      exact ⟨ne_empty_of_toList _ hq, ne_empty_of_toList _ ha, hlen⟩
    · exact absurd h (by simp)
  · exact absurd h (by simp)

theorem structuralFaqs_mem (soup : Node) (f : FAQ) (h : f ∈ structuralFaqs soup) :
    f.question ≠ "" ∧ f.answer ≠ "" ∧ 10 < f.question.length := by
  unfold structuralFaqs at h
  rcases List.mem_flatten.mp h with ⟨l, hl, hf⟩
  rcases List.mem_map.mp hl with ⟨sel, hsel, rfl⟩
  rcases List.mem_filterMap.mp hf with ⟨el, hel, hsome⟩
  exact faqFromElem_some el f hsome

theorem fallbackFaqs_mem (text : String) (f : FAQ) (h : f ∈ fallbackFaqs text) :
    f.question ≠ "" ∧ f.answer ≠ "" := by
  unfold fallbackFaqs at h
  rcases List.mem_filterMap.mp h with ⟨qa, hqa, hsome⟩
  dsimp only at hsome
  split at hsome
  · next hcond =>
    injection hsome with h2
    subst h2
    simp only [Bool.and_eq_true, Bool.not_eq_true'] at hcond
    exact ⟨ne_empty_of_toList _ hcond.1, ne_empty_of_toList _ hcond.2⟩
  · exact absurd hsome (by simp)

theorem firstSome_mem {α β : Type} (f : α → Option β) :
    ∀ (l : List α) (b : β), firstSome f l = some b → ∃ x ∈ l, f x = some b := by
  intro l
  induction l with
  | nil => intro b h; exact absurd h (by simp [firstSome])
  | cons x xs ih =>
    intro b h
    unfold firstSome at h
    cases hf : f x with
    | some c =>
      rw [hf] at h
      injection h with h2
      subst h2
      exact ⟨x, by simp, hf⟩
    | none =>
      rw [hf] at h
      rcases ih b h with ⟨y, hy, hfy⟩
      exact ⟨y, by simp [hy], hfy⟩

theorem takeChars_le (n : Nat) (s : String) : (takeChars n s).length ≤ n := by
  have h : (s.toList.take n).length ≤ n := by
    rw [List.length_take]
    exact Nat.min_le_left _ _
  exact h

theorem dedupAux_nodup {α : Type} [DecidableEq α] :
    ∀ (l seen : List α), (dedupAux seen l).Nodup ∧ ∀ x ∈ dedupAux seen l, x ∉ seen := by
  intro l
  induction l with
  | nil => intro seen; exact ⟨List.nodup_nil, by simp [dedupAux]⟩
  | cons x xs ih =>
    intro seen
    by_cases hx : x ∈ seen
    · rw [show dedupAux seen (x :: xs) = dedupAux seen xs from by simp [dedupAux, hx]]
      exact ih seen
    · rw [show dedupAux seen (x :: xs) = x :: dedupAux (x :: seen) xs from by
        simp [dedupAux, hx]]
      obtain ⟨hnd, hmem⟩ := ih (x :: seen)
      constructor
      · refine List.nodup_cons.mpr ⟨?_, hnd⟩
        intro hxin
        exact hmem x hxin (by simp)
      · intro y hy
        rcases List.mem_cons.mp hy with h1 | h2
        · subst h1; exact hx
        · intro hyseen
          exact hmem y h2 (by simp [hyseen])

theorem dedupFirst_nodup {α : Type} [DecidableEq α] (l : List α) : (dedupFirst l).Nodup :=
  (dedupAux_nodup l []).1

theorem fetchLoop_pages (fulls : List (List RawProduct)) (lastPg : List RawProduct)
    (hl : lastPg.length < 250)
    (hf : ∀ pg ∈ fulls, pg.length = 250)
    (hok : ∀ pg ∈ fulls ++ [lastPg], ∀ p ∈ pg, (normalizeProduct p).isOk = true) :
    fetchLoop (fulls ++ [lastPg]) =
      .ok (okCatalog (fulls.flatten ++ lastPg), fulls.length + 1) := by
  induction fulls with
  | nil =>
    cases lastPg with
    | nil => rfl
    | cons hd tl =>
      have hok0 : ∀ p ∈ hd :: tl, (normalizeProduct p).isOk = true :=
        hok (hd :: tl) (by simp)
      have hl2 : tl.length < 249 := by
        have h3 := hl
        simp [List.length_cons] at h3
        omega
      simp [fetchLoop, normList_ok _ hok0, hl2]
  | cons f fs ih =>
    have hf0 : f.length = 250 := hf f (by simp)
    have hokf : ∀ p ∈ f, (normalizeProduct p).isOk = true := hok f (by simp)
    have hrec := ih (fun pg hpg => hf pg (by simp [hpg]))
      (fun pg hpg => hok pg (by
        rcases List.mem_append.mp hpg with h1 | h2
        · exact List.mem_append.mpr (Or.inl (by simp [h1]))
        · exact List.mem_append.mpr (Or.inr h2)))
    have hfne : f.isEmpty = false := by
      cases f with
      | nil => simp at hf0
      | cons x xs => rfl
    simp [List.cons_append, fetchLoop, hfne, normList_ok f hokf, hf0, hrec,
      okCatalog_append, List.flatten_cons, List.append_assoc]

/-! ## Claim theorems -/

/-- C1: the claim states that a facet extractor raising an exception leaves
that facet at its default while the rest of the aggregate is returned.  The
code has only the top-level `try/except`: in the world `w0` the homepage is
reachable, yet the catalog facet's `IndexError` (empty variants list) escapes
to the blanket handler and the whole request aborts with the generic 500
error instead of returning an aggregate with an empty catalog. -/
theorem c1_catalog_failure_aborts :
    (w0.fetchPage "https://shop.com").isSome = true ∧
    fetch_store_insights w0 "shop.com" = .error .internal :=
  ⟨rfl, rfl⟩

/-- C10: normalization of a catalog entry indexes the first element of the
variants list (defaulting to a singleton empty mapping when the key is
absent, and to price `"0"` when the first variant has no price); it succeeds
exactly under the precondition that a present variants list is non-empty, and
the empty-variants entry `badP` hits the out-of-bounds index. -/
theorem c10_variants_indexing :
    (∀ p : RawProduct, (∀ vs, p.variants = some vs → vs ≠ []) →
      (normalizeProduct p).isOk = true) ∧
    normalizeProduct badP = .error .indexError ∧
    normalizeProduct noVarP =
      .ok { id := some "", title := some "NoVar", description := some "",
            price := some "0", images := [], variants := [] } ∧
    normalizeProduct noPriceP =
      .ok { id := some "", title := some "NoPrice", description := some "",
            price := some "0", images := [], variants := [[("sku", "1")]] } := by
  refine ⟨?_, rfl, rfl, rfl⟩
  intro p h
  cases hv : p.variants with
  | none => simp [normalizeProduct, hv, Except.isOk, Except.toBool]
  | some vs =>
    cases vs with
    | nil => exact absurd rfl (h [] hv)
    | cons v vt => simp [normalizeProduct, hv, Except.isOk, Except.toBool]

/-- Witness for C10 at the concrete well-formed entry `goodP`. -/
theorem c10_witness : (normalizeProduct goodP).isOk = true := by
  refine c10_variants_indexing.1 goodP ?_
  intro vs hv
  have h2 : some [[("price", "9.99")]] = some vs := hv
  injection h2 with h3
  subst h3
  simp

/-- C2: for a listing endpoint answering N full pages of exactly 250 entries
followed by one page of K < 250 entries (K ≥ 0, all entries normalizable),
`fetch_product_catalog` terminates with exactly 250·N + K normalized products
in page order, the loop issues exactly N + 1 fetches, and any page with fewer
than 250 entries (an empty or missing product list included) stops the loop
regardless of what would come after it. -/
theorem c2_pagination (fulls : List (List RawProduct)) (lastPg : List RawProduct)
    (hl : lastPg.length < 250)
    (hf : ∀ pg ∈ fulls, pg.length = 250)
    (hok : ∀ pg ∈ fulls ++ [lastPg], ∀ p ∈ pg, (normalizeProduct p).isOk = true) :
    fetch_product_catalog (fulls ++ [lastPg]) =
      .ok (okCatalog (fulls.flatten ++ lastPg)) ∧
    fetchLoop (fulls ++ [lastPg]) =
      .ok (okCatalog (fulls.flatten ++ lastPg), fulls.length + 1) ∧
    (okCatalog (fulls.flatten ++ lastPg)).length = 250 * fulls.length + lastPg.length ∧
    (∀ (pg : List RawProduct) (r1 r2 : List (List RawProduct)), pg.length < 250 →
      fetchLoop (pg :: r1) = fetchLoop (pg :: r2)) := by
  have hloop := fetchLoop_pages fulls lastPg hl hf hok
  have hokflat : ∀ p ∈ fulls.flatten ++ lastPg, (normalizeProduct p).isOk = true := by
    intro p hp
    rcases List.mem_append.mp hp with h1 | h2
    · rcases List.mem_flatten.mp h1 with ⟨pg, hpg, hppg⟩
      exact hok pg (List.mem_append.mpr (Or.inl hpg)) p hppg
    · exact hok lastPg (by simp) p h2
  refine ⟨?_, hloop, ?_, fun pg r1 r2 h => fetchLoop_stop pg r1 r2 h⟩
  · simp [fetch_product_catalog, hloop, Except.map]
  · rw [okCatalog_len _ hokflat]
    simp [List.length_append, flatten_len_const fulls hf]

/-- Witness for C2 with N = 0, K = 1: one short page, one fetch, one product;
and the stopping conjunct instantiated at a short first page. -/
theorem c2_witness :
    fetchLoop [[goodP]] = .ok (okCatalog [goodP], 1) ∧
    (okCatalog [goodP]).length = 1 ∧
    fetchLoop [[goodP], [badP]] = fetchLoop [[goodP]] := by
  have h := c2_pagination [] [goodP] (by decide)
    (by intro pg hpg; simp at hpg)
    (by
      intro pg hpg p hp
      simp at hpg
      subst hpg
      simp at hp
      subst hp
      rfl)
  exact ⟨h.2.1, by simpa using h.2.2.1, h.2.2.2 [goodP] [[badP]] [] (by decide)⟩

/-- C3: the hero matcher returns a sublist of the catalog (hence no
fabricated records, in catalog order) of length at most 6, and its output
depends on the homepage only through the candidate handles of the first 10
product anchors. -/
theorem c3_hero (soup : Node) (all_products : List ProductModel) :
    List.Sublist (extract_hero_products soup all_products) all_products ∧
    (extract_hero_products soup all_products).length ≤ 6 ∧
    (∀ soup2 : Node,
      handlesOf ((productAnchors soup).take 10) =
        handlesOf ((productAnchors soup2).take 10) →
      extract_hero_products soup all_products =
        extract_hero_products soup2 all_products) := by
  refine ⟨?_, ?_, ?_⟩
  · obtain ⟨t, ht, hs⟩ :=
      heroLoop_sub (handlesOf ((productAnchors soup).take 10)) all_products []
    unfold extract_hero_products
    rw [ht]
    simpa using hs
  · exact heroLoop_len _ all_products [] (by decide)
  · intro soup2 h
    unfold extract_hero_products
    rw [h]

/-- Witness for C3 at a concrete homepage and catalog; the congruence part is
discharged against the same page with an extra non-product anchor. -/
theorem c3_witness :
    List.Sublist (extract_hero_products sH cat3) cat3 ∧
    extract_hero_products sH cat3 = extract_hero_products sHb cat3 :=
  ⟨(c3_hero sH cat3).1, (c3_hero sH cat3).2.2 sHb (by decide)⟩

/-- C6 counterexample: the anchor `a6` matches the tracking, contact and
shipping keyword sets at once, yet only `order_tracking` is populated — the
`elif` chain enforces mutual exclusivity, contradicting the claim that such
an anchor populates every matching category. -/
theorem c6_counterexample :
    matchTrack (anchorText a6) = true ∧
    matchContact (anchorText a6) = true ∧
    matchShip (anchorText a6) = true ∧
    extract_important_links s6 "https://shop.com" =
      { order_tracking := some "https://shop.com/t" } :=
  ⟨rfl, rfl, rfl, rfl⟩

/-- C6 (amended): each anchor populates at most one category — the first in
the priority order tracking, contact, blog, shipping, sizing whose keyword
set matches its lower-cased trimmed text — and each category holds the
resolved href of the last anchor (in document order) assigned to it. -/
theorem c6_links (soup : Node) (base_url : String) :
    (extract_important_links soup base_url).order_tracking =
      (((hrefAnchors soup).filter (fun n => matchTrack (anchorText n))).getLast?).map
        (resolvedHref base_url) ∧
    (extract_important_links soup base_url).contact_us =
      (((hrefAnchors soup).filter (fun n =>
        !matchTrack (anchorText n) && matchContact (anchorText n))).getLast?).map
        (resolvedHref base_url) ∧
    (extract_important_links soup base_url).blogs =
      (((hrefAnchors soup).filter (fun n =>
        !matchTrack (anchorText n) && !matchContact (anchorText n) &&
          matchBlog (anchorText n))).getLast?).map
        (resolvedHref base_url) ∧
    (extract_important_links soup base_url).shipping_info =
      (((hrefAnchors soup).filter (fun n =>
        !matchTrack (anchorText n) && !matchContact (anchorText n) &&
          !matchBlog (anchorText n) && matchShip (anchorText n))).getLast?).map
        (resolvedHref base_url) ∧
    (extract_important_links soup base_url).size_guide =
      (((hrefAnchors soup).filter (fun n =>
        !matchTrack (anchorText n) && !matchContact (anchorText n) &&
          !matchBlog (anchorText n) && !matchShip (anchorText n) &&
          matchSize (anchorText n))).getLast?).map
        (resolvedHref base_url) := by
  refine ⟨?_, ?_, ?_, ?_, ?_⟩
  · have h := foldl_last_update (updLinks base_url) (fun s => s.order_tracking)
      (fun n => matchTrack (anchorText n)) (resolvedHref base_url)
      (fun s a => updLinks_track base_url s a) (hrefAnchors soup) {}
    rw [extract_important_links, h]
    cases hx : ((hrefAnchors soup).filter (fun n => matchTrack (anchorText n))).getLast? <;>
      rfl
  · have h := foldl_last_update (updLinks base_url) (fun s => s.contact_us)
      (fun n => !matchTrack (anchorText n) && matchContact (anchorText n))
      (resolvedHref base_url)
      (fun s a => updLinks_contact base_url s a) (hrefAnchors soup) {}
    rw [extract_important_links, h]
    cases hx : ((hrefAnchors soup).filter (fun n =>
      !matchTrack (anchorText n) && matchContact (anchorText n))).getLast? <;> rfl
  · have h := foldl_last_update (updLinks base_url) (fun s => s.blogs)
      (fun n => !matchTrack (anchorText n) && !matchContact (anchorText n) &&
        matchBlog (anchorText n)) (resolvedHref base_url)
      (fun s a => updLinks_blog base_url s a) (hrefAnchors soup) {}
    rw [extract_important_links, h]
    cases hx : ((hrefAnchors soup).filter (fun n =>
      !matchTrack (anchorText n) && !matchContact (anchorText n) &&
        matchBlog (anchorText n))).getLast? <;> rfl
  · have h := foldl_last_update (updLinks base_url) (fun s => s.shipping_info)
      (fun n => !matchTrack (anchorText n) && !matchContact (anchorText n) &&
        !matchBlog (anchorText n) && matchShip (anchorText n)) (resolvedHref base_url)
      (fun s a => updLinks_ship base_url s a) (hrefAnchors soup) {}
    rw [extract_important_links, h]
    cases hx : ((hrefAnchors soup).filter (fun n =>
      !matchTrack (anchorText n) && !matchContact (anchorText n) &&
        !matchBlog (anchorText n) && matchShip (anchorText n))).getLast? <;> rfl
  · have h := foldl_last_update (updLinks base_url) (fun s => s.size_guide)
      (fun n => !matchTrack (anchorText n) && !matchContact (anchorText n) &&
        !matchBlog (anchorText n) && !matchShip (anchorText n) &&
        matchSize (anchorText n)) (resolvedHref base_url)
      (fun s a => updLinks_size base_url s a) (hrefAnchors soup) {}
    rw [extract_important_links, h]
    cases hx : ((hrefAnchors soup).filter (fun n =>
      !matchTrack (anchorText n) && !matchContact (anchorText n) &&
        !matchBlog (anchorText n) && !matchShip (anchorText n) &&
        matchSize (anchorText n))).getLast? <;> rfl

/-- C7 counterexample: the anchor `a7` has an href containing `x.com`, but
the `find_all` filter regex does not mention `x.com`, so the anchor is never
scanned and the twitter field stays unset — contradicting the claim that any
anchor whose href contains `x.com` sets the twitter field. -/
theorem c7_counterexample :
    inStr "x.com" ((getAttr a7 "href").getD "") = true ∧
    socialAnchors s7 = [] ∧
    extract_social_handles s7 = ({} : SocialHandles) :=
  ⟨rfl, rfl, rfl⟩

/-- C7 (amended): only anchors whose raw href contains one of the six
platform-domain strings are scanned at all (an href containing only `x.com`
is not); among scanned anchors the twitter field holds the lower-cased href
of the last one, in document order, that reaches the twitter `elif` branch
(`twitter.com` or `x.com` in the lower-cased href, instagram and facebook not
matching first). -/
theorem c7_social (soup : Node) :
    (extract_social_handles soup).twitter =
      (((socialAnchors soup).filter twitterBranch).getLast?).map lowHref := by
  have h := foldl_last_update updSocial (fun s => s.twitter) twitterBranch lowHref
    (fun s a => updSocial_twitter s a) (socialAnchors soup) {}
  rw [extract_social_handles, h]
  cases hx : ((socialAnchors soup).filter twitterBranch).getLast? <;> rfl

/-- C5 counterexample: on a page whose only FAQ source is the regex
fallback, `extract_faqs` returns an FAQ whose trimmed question has only 4
characters — the fallback never enforces the >10-character question rule the
claim states for every returned FAQ. -/
theorem c5_counterexample :
    extract_faqs s5 = [⟨"Why?", "Because it works."⟩] ∧
    ("Why?" : String).length ≤ 10 :=
  ⟨rfl, by decide⟩

/-- C5 (amended): every returned FAQ has a non-empty question and a
non-empty answer and the list has at most 15 entries; the
>10-character question requirement holds whenever the structural strategy
produced the result (it yielded at least one FAQ), while the regex fallback
only requires non-emptiness. -/
theorem c5_faqs (soup : Node) :
    (extract_faqs soup).length ≤ 15 ∧
    (∀ f ∈ extract_faqs soup, f.question ≠ "" ∧ f.answer ≠ "") ∧
    (structuralFaqs soup ≠ [] → ∀ f ∈ extract_faqs soup, 10 < f.question.length) := by
  have hsub : ∀ f ∈ extract_faqs soup,
      f ∈ structuralFaqs soup ∨ f ∈ fallbackFaqs (getTextAll soup) := by
    intro f hf
    unfold extract_faqs at hf
    dsimp only at hf
    have hf2 := List.take_subset 15 _ hf
    by_cases he : (structuralFaqs soup).isEmpty = true
    · rw [if_pos he] at hf2
      exact Or.inr hf2
    · rw [if_neg he] at hf2
      exact Or.inl hf2
  refine ⟨?_, ?_, ?_⟩
  · unfold extract_faqs
    dsimp only
    exact List.length_take_le 15 _
  · intro f hf
    rcases hsub f hf with h1 | h2
    · have h3 := structuralFaqs_mem soup f h1
      exact ⟨h3.1, h3.2.1⟩
    · exact fallbackFaqs_mem _ f h2
  · intro hne f hf
    have he : (structuralFaqs soup).isEmpty = false := by
      cases hs : structuralFaqs soup with
      | nil => exact absurd hs hne
      | cons a as => rfl
    unfold extract_faqs at hf
    dsimp only at hf
    rw [he] at hf
    simp only [Bool.false_eq_true, if_false] at hf
    exact (structuralFaqs_mem soup f (List.take_subset _ _ hf)).2.2

/-- Witness for C5 at a page with one structural FAQ container: the
structural strategy is non-empty there, and every returned question exceeds
10 characters. -/
theorem c5_witness :
    (extract_faqs sW).all (fun f => decide (10 < f.question.length)) = true := by
  have h := (c5_faqs sW).2.2 (by decide)
  rw [List.all_eq_true]
  intro f hf
  exact decide_eq_true (h f hf)

/-- C8 counterexample: with no matching about selector and a 1001-character
meta description, `extract_brand_context` returns the full meta content —
the fallback does not respect the claimed 1000-character bound. -/
theorem c8_counterexample :
    extract_brand_context s8 = some (String.mk (List.replicate 1001 'a')) ∧
    1000 < (String.mk (List.replicate 1001 'a')).length := by
  exact ⟨rfl, by decide⟩

/-- C8 (amended): any brand context produced by an about selector is
truncated to 1000 characters; a result exceeding that bound can only be the
meta-description content, which the fallback returns untruncated. -/
theorem c8_context (soup : Node) :
    ∀ t, extract_brand_context soup = some t →
      t.length ≤ 1000 ∨ t = metaDescContent soup := by
  intro t h
  unfold extract_brand_context at h
  split at h
  · next t0 heq =>
    injection h with h2
    subst h2
    left
    rcases firstSome_mem _ about_selectors _ heq with ⟨sel, hsel, hsome⟩
    dsimp only at hsome
    split at hsome
    · split at hsome
      · injection hsome with h3
        rw [← h3]
        exact takeChars_le 1000 _
      · exact absurd hsome (by simp)
    · exact absurd hsome (by simp)
  · dsimp only at h
    split at h
    · injection h with h2
      right
      exact h2.symm
    · exact absurd h (by simp)

/-- Witness for C8 at a page whose about section has 60 characters. -/
theorem c8_witness :
    (String.mk (List.replicate 60 'b')).length ≤ 1000 ∨
      String.mk (List.replicate 60 'b') = metaDescContent s8w :=
  c8_context s8w (String.mk (List.replicate 60 'b')) (by rfl)

/-- C9: the contact extractor caps emails at 5 and phone numbers at 3, the
email list is deduplicated and free of `.png`/`.jpg`/`.gif` matches, and on
a page with seven distinct valid emails of which two end in `.png` it
returns exactly the five remaining emails. -/
theorem c9_contact :
    (∀ soup : Node,
      (extract_contact_details soup).emails.length ≤ 5 ∧
      (extract_contact_details soup).phone_numbers.length ≤ 3 ∧
      (extract_contact_details soup).emails.Nodup ∧
      (extract_contact_details soup).emails.all (fun e => !isImageEmail e) = true) ∧
    (extract_contact_details s9).emails.Perm
      ["a1@ex.com", "b2@ex.com", "c3@ex.com", "d4@ex.com", "e5@ex.com"] := by
  constructor
  · intro soup
    refine ⟨?_, ?_, ?_, ?_⟩
    · exact List.length_take_le 5 _
    · exact List.length_take_le 3 _
    · have h1 : (dedupFirst (emailFindall (getTextAll soup))).Nodup := dedupFirst_nodup _
      have h2 := h1.filter (fun e => !isImageEmail e)
      exact List.Nodup.sublist (List.take_sublist 5 _) h2
    · rw [List.all_eq_true]
      intro e he
      have h3 := List.take_subset 5 _ he
      exact (List.mem_filter.mp h3).2
  · decide

/-- C4: `extract_brand_name` never returns an empty result; with only
`<title>Acme | Home</title>` it returns `"Acme"` for any URL; with no
title/meta/logo it returns the capitalized first domain label (`www.`
stripped); and when every method yields empty it returns the literal
`"Unknown Brand"`. -/
theorem c4_brand_name :
    (∀ (soup : Node) (url : String), 0 < (extract_brand_name soup url).length) ∧
    (∀ url : String, extract_brand_name sAcme url = "Acme") ∧
    extract_brand_name sBare "https://www.shop.example.com" = "Shop" ∧
    extract_brand_name sBare "https://" = "Unknown Brand" := by
  refine ⟨?_, fun url => rfl, rfl, rfl⟩
  intro soup url
  exact str_len_pos _
    (firstTruthy_ne _ _ (firstTruthy_ne _ _ (firstTruthy_ne _ _ (firstTruthy_ne _ _
      (by decide)))))

end Shopify
